import Mathlib

/-!
# Verification of the gitmcp atomic multi-file commit engine

Shallow embedding of the batch-commit pipeline of `gitmcp.py`
(`edit_file`, `batch_update_files`, `delete_files_batch`, `move_file`,
`move_files_batch`, `rename_file`).  Strings (paths, modes, file bodies)
are modelled as `List Char`; the remote mutations (blob / tree / commit
creation, branch ref update) performed by an operation are recorded in an
explicit effect list, so that "no remote mutation happened" is
expressible.  Each operation returns the `Except`-style outcome the
Python function returns (error dictionary vs. success dictionary),
paired with the list of mutations it performed.
-/

deriving instance DecidableEq for Except

namespace GitMCP

/-- Machine strings: paths, file modes and file bodies. -/
abbrev Str := List Char

/-! ## Python string primitives

`pyIn`, `pyCount`, `pyReplace` model Python's `in`, `str.count` and
`str.replace` (non-overlapping, left-to-right scan; the empty pattern
matches at every position, so `s.count("")` is `s.length + 1`). -/

/-- Python `pat in s` (substring test). -/
def pyIn : Str → Str → Bool
  | [], _ => true
  | _ :: _, [] => false
  | p :: ps, c :: cs => (p :: ps).isPrefixOf (c :: cs) || pyIn (p :: ps) cs

/-- Python `s.count(pat)`: number of non-overlapping occurrences. -/
def pyCount : Str → Str → Nat
  | [], s => s.length + 1
  | _ :: _, [] => 0
  | p :: ps, c :: cs =>
    if (p :: ps).isPrefixOf (c :: cs) then 1 + pyCount (p :: ps) (cs.drop ps.length)
    else pyCount (p :: ps) cs
termination_by _ s => s.length
decreasing_by all_goals (simp_wf; try omega)

/-- Python `s.replace(pat, rep)` (replaces every non-overlapping occurrence). -/
def pyReplace : Str → Str → Str → Str
  | [], rep, [] => rep
  | [], rep, c :: cs => rep ++ c :: pyReplace [] rep cs
  | _ :: _, _, [] => []
  | p :: ps, rep, c :: cs =>
    if (p :: ps).isPrefixOf (c :: cs) then rep ++ pyReplace (p :: ps) rep (cs.drop ps.length)
    else c :: pyReplace (p :: ps) rep cs
termination_by _ _ s => s.length
decreasing_by all_goals (simp_wf; try omega)

example : pyCount "oo".toList "foooo".toList = 2 := by simp [pyCount]
example : pyCount "".toList "abc".toList = 4 := by simp [pyCount]
example : pyReplace "foo".toList "ba".toList "xfooy".toList = "xbay".toList := by
  simp [pyReplace]
example : pyIn "oo".toList "foo".toList = true := by decide

/-! ## Data model -/

/-- One file entry of the snapshot of a branch tip, as the recursive
`get_all_files` helpers observe it: repo-relative path, blob sha
(the content reference), the git file mode the entry has in the tree at
the tip, and its (decoded) body. -/
structure SnapEntry where
  path : Str
  sha : Nat
  mode : Str
  content : Str
deriving DecidableEq

/-- One element of a synthesized git tree (the dictionaries the Python
code appends to `tree_elements` / `blobs`). -/
structure TreeElement where
  path : Str
  mode : Str
  sha : Nat
deriving DecidableEq

/-- One requested move (`{'source': ..., 'destination': ...}`). -/
structure Move where
  source : Str
  destination : Str
deriving DecidableEq

/-- The structured errors the tools return (the `{"error": ...}`
dictionaries), by the rule that triggered them. -/
inductive Err
  | textNotFound (searched : Str)
  | ambiguousMatch (searched : Str) (occurrences : Nat)
  | duplicateSource (p : Str)
  | duplicateDestination (p : Str)
  | sourceNotFound (p : Str)
  | destinationExists (p : Str)
  | sameName
deriving DecidableEq

/-- Remote mutations an operation can perform: `repo.update_file`,
`repo.create_git_blob`, `repo.create_git_tree`, `repo.create_git_commit`
and `ref.edit`.  Reads (`get_contents`, `get_git_ref`, …) are not
mutations and are not recorded. -/
inductive Effect
  | updateFile (path : Str)
  | createBlob (sha : Nat)
  | createTree (elements : List TreeElement)
  | createCommit
  | refEdit
deriving DecidableEq

/-- The hard-coded `"100644"` regular-file mode the Python code stamps on
every tree element it builds. -/
def mode644 : Str := "100644".toList

/-- `repo.get_contents(p)` restricted to the snapshot: the first entry at
path `p`, if any. -/
def entryAt (snapshot : List SnapEntry) (p : Str) : Option SnapEntry :=
  snapshot.find? (fun e => decide (e.path = p))

/-- Whether a path exists at the branch tip. -/
def hasPath (snapshot : List SnapEntry) (p : Str) : Bool :=
  (entryAt snapshot p).isSome

/-- The path set of a snapshot. -/
def snapPaths (s : List SnapEntry) : List Str := s.map SnapEntry.path

/-- The path set of a synthesized tree. -/
def treePaths (t : List TreeElement) : List Str := t.map TreeElement.path

/-- The repeated `get_all_files()` + exclusion filter: every snapshot file
whose path is not excluded, re-emitted as a tree element with the
hard-coded `"100644"` mode and its existing blob sha. -/
def retainedElements (snapshot : List SnapEntry) (excluded : List Str) : List TreeElement :=
  (snapshot.filter (fun e => decide (e.path ∉ excluded))).map
    (fun e => ⟨e.path, mode644, e.sha⟩)

/-! ## Operations (from `gitmcp.py`) -/

/-- `edit_file` (gitmcp.py:273): replace `old_text` by `new_text` in the
current content of a file.  Zero occurrences and multiple occurrences are
rejected before `repo.update_file` is called; on a unique occurrence the
replaced body is committed (the contents API's `update_file` is the
single mutation). -/
def edit_file (file_path : Str) (current_content old_text new_text : Str) :
    Except Err Str × List Effect :=
  if pyIn old_text current_content = false then
    (.error (.textNotFound old_text), [])
  else
    let occurrences := pyCount old_text current_content
    if occurrences > 1 then
      (.error (.ambiguousMatch old_text occurrences), [])
    else
      let new_content := pyReplace old_text new_text current_content
      (.ok new_content, [.updateFile file_path])

/-- `repo.create_git_tree(elements, base_tree)`: the given elements
overlay the base tree; base entries whose path is not mentioned survive
unchanged (their own mode and sha). -/
def create_git_tree_with_base (base : List SnapEntry) (elements : List TreeElement) :
    List TreeElement :=
  (base.filter (fun e => decide (e.path ∉ elements.map TreeElement.path))).map
    (fun e => ⟨e.path, e.mode, e.sha⟩) ++ elements

/-- `batch_update_files` (gitmcp.py:407): one blob per change, a tree on
top of the base tree, one commit, one ref update.  No validation of any
kind is performed on `changes`. -/
def batch_update_files (blobSha : Str → Nat) (snapshot : List SnapEntry)
    (changes : List (Str × Str)) : Except Err (List TreeElement) × List Effect :=
  let blobs := changes.map (fun ch => (⟨ch.1, mode644, blobSha ch.2⟩ : TreeElement))
  let tree := create_git_tree_with_base snapshot blobs
  (.ok tree,
    changes.map (fun ch => Effect.createBlob (blobSha ch.2)) ++
      [.createTree tree, .createCommit, .refEdit])

/-- `delete_files_batch` (gitmcp.py:1081): list every file, keep the ones
whose path is not listed for deletion, build a tree from scratch out of
the kept files, commit it and move the ref. -/
def delete_files_batch (snapshot : List SnapEntry) (file_paths : List Str) :
    Except Err (List TreeElement) × List Effect :=
  let tree_elements := retainedElements snapshot file_paths
  (.ok tree_elements, [.createTree tree_elements, .createCommit, .refEdit])

/-- `move_file` (gitmcp.py:1284): fetch the source (error if absent),
reject if the destination already exists, then blob + tree + commit +
ref update. -/
def move_file (blobSha : Str → Nat) (snapshot : List SnapEntry)
    (source_path destination_path : Str) : Except Err (List TreeElement) × List Effect :=
  match entryAt snapshot source_path with
  | none => (.error (.sourceNotFound source_path), [])
  | some e =>
    if hasPath snapshot destination_path then
      (.error (.destinationExists destination_path), [])
    else
      let blob := blobSha e.content
      let tree := retainedElements snapshot [source_path] ++
        [⟨destination_path, mode644, blob⟩]
      (.ok tree, [.createBlob blob, .createTree tree, .createCommit, .refEdit])

/-- The validation loop of `move_files_batch` (gitmcp.py:1420–1450),
threading the `source_paths`, `dest_paths` and `file_contents`
accumulators exactly as the Python loop does.  Note the destination-
exists exemption consults `source_paths` as accumulated *so far* (the
current move's source included), not the batch's full source set. -/
def validateMoves (snapshot : List SnapEntry) :
    List Move → List Str → List Str → List (Str × Str) →
    Except Err (List Str × List Str × List (Str × Str))
  | [], source_paths, dest_paths, file_contents =>
    .ok (source_paths, dest_paths, file_contents)
  | m :: rest, source_paths, dest_paths, file_contents =>
    if m.source ∈ source_paths then .error (.duplicateSource m.source)
    else if m.destination ∈ dest_paths then .error (.duplicateDestination m.destination)
    else
      let source_paths' := source_paths ++ [m.source]
      let dest_paths' := dest_paths ++ [m.destination]
      match entryAt snapshot m.source with
      | none => .error (.sourceNotFound m.source)
      | some e =>
        let file_contents' := file_contents ++ [(m.destination, e.content)]
        if m.destination ∉ source_paths' ∧ hasPath snapshot m.destination then
          .error (.destinationExists m.destination)
        else validateMoves snapshot rest source_paths' dest_paths' file_contents'

/-- `move_files_batch` (gitmcp.py:1388): validate every move first; only
if the whole batch validates are blobs, the tree, the commit and the ref
update performed. -/
def move_files_batch (blobSha : Str → Nat) (snapshot : List SnapEntry) (moves : List Move) :
    Except Err (List TreeElement) × List Effect :=
  match validateMoves snapshot moves [] [] [] with
  | .error e => (.error e, [])
  | .ok (source_paths, _, file_contents) =>
    let dest_blobs := file_contents.map (fun dc => (dc.1, blobSha dc.2))
    let tree := retainedElements snapshot source_paths ++
      dest_blobs.map (fun db => (⟨db.1, mode644, db.2⟩ : TreeElement))
    (.ok tree,
      dest_blobs.map (fun db => Effect.createBlob db.2) ++
        [.createTree tree, .createCommit, .refEdit])

/-- `file_path.split("/")` on char-list strings. -/
def splitSlash (s : Str) : List Str :=
  s.foldr (fun c acc => if c = '/' then [] :: acc else (c :: acc.headD []) :: acc.tail) [[]]

example : splitSlash "a/b.txt".toList = ["a".toList, "b.txt".toList] := by decide
example : splitSlash "b.txt".toList = ["b.txt".toList] := by decide

/-- The filename `rename_file` extracts from `file_path`: the last
slash-separated segment when the path contains a slash, the whole path
otherwise. -/
def currentName (file_path : Str) : Str :=
  if '/' ∈ file_path then (splitSlash file_path).getLastD [] else file_path

/-- The destination path `rename_file` builds: same directory, new
filename. -/
def renamedPath (file_path new_name : Str) : Str :=
  if '/' ∈ file_path then
    List.intercalate ['/'] (splitSlash file_path).dropLast ++ '/' :: new_name
  else new_name

example : currentName "src/a.py".toList = "a.py".toList := by decide
example : renamedPath "src/a.py".toList "b.py".toList = "src/b.py".toList := by decide

/-- `rename_file` (gitmcp.py:1518): same-name renames are rejected first;
then source fetch, destination-exists check, blob + tree + commit + ref
update as in `move_file`. -/
def rename_file (blobSha : Str → Nat) (snapshot : List SnapEntry)
    (file_path new_name : Str) : Except Err (List TreeElement) × List Effect :=
  if currentName file_path = new_name then (.error .sameName, [])
  else
    match entryAt snapshot file_path with
    | none => (.error (.sourceNotFound file_path), [])
    | some e =>
      if hasPath snapshot (renamedPath file_path new_name) then
        (.error (.destinationExists (renamedPath file_path new_name)), [])
      else
        let blob := blobSha e.content
        let tree := retainedElements snapshot [file_path] ++
          [⟨renamedPath file_path new_name, mode644, blob⟩]
        (.ok tree, [.createBlob blob, .createTree tree, .createCommit, .refEdit])

/-! ## Spec-modelled collaborators

The content-addressed object store and the branch ref live on the remote
provider; `gitmcp.py` only calls into them (`create_git_blob`,
`ref.edit`).  They are modelled here from the spec. -/

/-- Modelled from the spec: the remote content-addressed object store
behind `createContentObject` / `create_git_blob` is not part of the
repository's own sources.  Per spec §4.3 an object is an immutable byte
sequence identified by a content-derived reference. -/
structure ContentStore where
  objects : List Str
deriving DecidableEq

/-- The only failure a naive object store could raise on re-writing. -/
inductive StoreFailure
  | alreadyExists
deriving DecidableEq

/-- Modelled from the spec: the content-derived reference of a byte
sequence (spec §3, ContentObject). -/
def contentRef (b : Str) : Str := b

/-- Modelled from the spec: `write(bytes) -> ContentRef` (spec §4.3).
Writing stores the object (if new) and returns its content-derived
reference; it never fails on "already exists". -/
def writeContent (b : Str) (s : ContentStore) : Except StoreFailure (Str × ContentStore) :=
  .ok (contentRef b, ⟨if b ∈ s.objects then s.objects else b :: s.objects⟩)

/-- Modelled from the spec: the branch ref, the one mutable pointer
(spec §3, BranchRef). -/
structure BranchRef where
  tip : Nat
deriving DecidableEq

/-- Failure of the ref update under a concurrent writer. -/
inductive RefFailure
  | refConflict
deriving DecidableEq

/-- Modelled from the spec: `compareAndSetRef` (spec §6) — the update
succeeds only if the ref still points at the expected tip, otherwise the
store rejects it as a conflict (spec §4.5). -/
def compareAndSetRef (expected newTip : Nat) (r : BranchRef) : Except RefFailure BranchRef :=
  if r.tip = expected then .ok ⟨newTip⟩ else .error .refConflict

/-! ## Concrete sample data for witnesses and counterexamples -/

/-- A trivial deterministic blob-sha assignment for concrete runs. -/
def blobSha0 : Str → Nat := fun _ => 0

/-- Sample snapshot: `{README.md, src/a.py}` (spec §8 end-to-end scenario). -/
def snapEx : List SnapEntry :=
  [⟨"README.md".toList, 1, mode644, "v1".toList⟩,
   ⟨"src/a.py".toList, 2, mode644, "pass".toList⟩]

/-- Sample snapshot with two plain files `a.txt`, `b.txt`. -/
def snapAB : List SnapEntry :=
  [⟨"a.txt".toList, 1, mode644, "A".toList⟩,
   ⟨"b.txt".toList, 2, mode644, "B".toList⟩]

/-- A chain of moves in which the second move vacates the first move's
destination: `a.txt → b.txt` followed by `b.txt → c.txt`. -/
def movesChain : List Move :=
  [⟨"a.txt".toList, "b.txt".toList⟩, ⟨"b.txt".toList, "c.txt".toList⟩]

/-- Sample snapshot with one executable file (git mode `100755`). -/
def snapExec : List SnapEntry :=
  [⟨"run.sh".toList, 5, "100755".toList, "X".toList⟩]

/-- A batch writing the same destination path twice. -/
def dupChanges : List (Str × Str) :=
  [("a.txt".toList, "1".toList), ("a.txt".toList, "2".toList)]

/-! ## Lemmas about the Python string primitives -/

theorem isPrefixOf_drop_eq : ∀ (p l : Str), p.isPrefixOf l = true → p ++ l.drop p.length = l := by
  intro p
  induction p with
  | nil => intro l _; simp
  | cons a as ih =>
    intro l h
    cases l with
    | nil => simp [List.isPrefixOf] at h
    | cons b bs =>
      simp only [List.isPrefixOf, Bool.and_eq_true, beq_iff_eq] at h
      obtain ⟨rfl, hrest⟩ := h
      simpa using ih bs hrest

theorem pyIn_eq_false_iff (pat : Str) : ∀ s : Str, pyIn pat s = false ↔ pyCount pat s = 0 := by
  intro s
  cases pat with
  | nil => simp [pyIn, pyCount]
  | cons p ps =>
    induction s with
    | nil => simp [pyIn, pyCount]
    | cons c cs ihs =>
      by_cases hpre : (p :: ps).isPrefixOf (c :: cs) = true
      · simp [pyIn, pyCount, hpre]
      · simp only [Bool.not_eq_true] at hpre
        simp [pyIn, pyCount, hpre, ihs]

theorem pyReplace_of_count_zero (pat rep : Str) :
    ∀ s : Str, pyCount pat s = 0 → pyReplace pat rep s = s := by
  intro s
  cases pat with
  | nil => intro h; simp [pyCount] at h
  | cons p ps =>
    induction s with
    | nil => intro _; simp [pyReplace]
    | cons c cs ihs =>
      intro h
      by_cases hpre : (p :: ps).isPrefixOf (c :: cs) = true
      · simp [pyCount, hpre] at h
      · simp only [Bool.not_eq_true] at hpre
        simp only [pyCount, hpre, Bool.false_eq_true, if_false] at h
        simp [pyReplace, hpre, ihs h]

theorem pyCount_one_decomp (pat rep : Str) :
    ∀ s : Str, pyCount pat s = 1 →
      ∃ a b, s = a ++ pat ++ b ∧ pyReplace pat rep s = a ++ rep ++ b := by
  intro s
  cases pat with
  | nil =>
    intro h
    simp only [pyCount, Nat.add_left_eq_self, List.length_eq_zero] at h
    subst h
    exact ⟨[], [], by simp, by simp [pyReplace]⟩
  | cons p ps =>
    induction s with
    | nil => intro h; simp [pyCount] at h
    | cons c cs ihs =>
      intro h
      by_cases hpre : (p :: ps).isPrefixOf (c :: cs) = true
      · have hdec := isPrefixOf_drop_eq (p :: ps) (c :: cs) hpre
        simp only [List.length_cons, List.drop_succ_cons] at hdec
        simp only [pyCount, hpre, if_true] at h
        have h0 : pyCount (p :: ps) (cs.drop ps.length) = 0 := by omega
        refine ⟨[], cs.drop ps.length, by simpa using hdec.symm, ?_⟩
        simp [pyReplace, hpre, pyReplace_of_count_zero _ rep _ h0]
      · simp only [Bool.not_eq_true] at hpre
        simp only [pyCount, hpre, Bool.false_eq_true, if_false] at h
        obtain ⟨a, b, hab, hrep⟩ := ihs h
        refine ⟨c :: a, b, by simp [hab], ?_⟩
        simp [pyReplace, hpre, hrep]

/-! ## Lemmas about the tree synthesis and the move validation loop -/

theorem mem_retainedElements_of (snapshot : List SnapEntry) (excluded : List Str)
    (e : SnapEntry) (he : e ∈ snapshot) (hp : e.path ∉ excluded) :
    (⟨e.path, mode644, e.sha⟩ : TreeElement) ∈ retainedElements snapshot excluded := by
  simp only [retainedElements, List.mem_map, List.mem_filter, decide_eq_true_eq]
  exact ⟨e, ⟨he, hp⟩, rfl⟩

theorem mem_treePaths_retained (snapshot : List SnapEntry) (excluded : List Str) (p : Str) :
    p ∈ treePaths (retainedElements snapshot excluded) ↔
      p ∈ snapPaths snapshot ∧ p ∉ excluded := by
  simp only [treePaths, retainedElements, snapPaths, List.mem_map, List.mem_filter,
    decide_eq_true_eq]
  constructor
  · rintro ⟨t, ⟨a, ⟨ha, hna⟩, rfl⟩, rfl⟩
    exact ⟨⟨a, ha, rfl⟩, hna⟩
  · rintro ⟨⟨a, ha, rfl⟩, hna⟩
    exact ⟨⟨a.path, mode644, a.sha⟩, ⟨a, ⟨ha, hna⟩, rfl⟩, rfl⟩

theorem validateMoves_ok_acc (snapshot : List SnapEntry) :
    ∀ (ms : List Move) (sps dps : List Str) (fcs : List (Str × Str))
      (sps' dps' : List Str) (fcs' : List (Str × Str)),
      validateMoves snapshot ms sps dps fcs = .ok (sps', dps', fcs') →
      sps' = sps ++ ms.map Move.source ∧ dps' = dps ++ ms.map Move.destination ∧
        fcs'.map Prod.fst = fcs.map Prod.fst ++ ms.map Move.destination := by
  intro ms
  induction ms with
  | nil =>
    intro sps dps fcs sps' dps' fcs' h
    simp only [validateMoves, Except.ok.injEq, Prod.mk.injEq] at h
    obtain ⟨rfl, rfl, rfl⟩ := h
    simp
  | cons m rest ih =>
    intro sps dps fcs sps' dps' fcs' h
    by_cases h1 : m.source ∈ sps
    · simp [validateMoves, h1] at h
    · by_cases h2 : m.destination ∈ dps
      · simp [validateMoves, h1, h2] at h
      · cases he : entryAt snapshot m.source with
        | none => simp [validateMoves, h1, h2, he] at h
        | some e =>
          by_cases h3 : m.destination ∉ sps ++ [m.source] ∧ hasPath snapshot m.destination = true
          · simp [validateMoves, h1, h2, he, h3] at h
          · simp only [validateMoves, h1, h2, he, h3, if_neg, if_false] at h
            have h' : validateMoves snapshot rest (sps ++ [m.source])
                (dps ++ [m.destination]) (fcs ++ [(m.destination, e.content)]) =
                .ok (sps', dps', fcs') := by
              simpa [h1, h2, h3] using h
            obtain ⟨e1, e2, e3⟩ := ih _ _ _ _ _ _ h'
            refine ⟨by simp [e1], by simp [e2], by simp [e3]⟩

theorem validateMoves_append (snapshot : List SnapEntry) :
    ∀ (l1 l2 : List Move) (sps dps : List Str) (fcs : List (Str × Str)),
      validateMoves snapshot (l1 ++ l2) sps dps fcs =
        match validateMoves snapshot l1 sps dps fcs with
        | .ok (sps', dps', fcs') => validateMoves snapshot l2 sps' dps' fcs'
        | .error e => .error e := by
  intro l1
  induction l1 with
  | nil => intro l2 sps dps fcs; simp [validateMoves]
  | cons m rest ih =>
    intro l2 sps dps fcs
    by_cases h1 : m.source ∈ sps
    · simp [validateMoves, h1]
    · by_cases h2 : m.destination ∈ dps
      · simp [validateMoves, h1, h2]
      · cases he : entryAt snapshot m.source with
        | none => simp [validateMoves, h1, h2, he]
        | some e =>
          by_cases h3 : m.destination ∉ sps ++ [m.source] ∧ hasPath snapshot m.destination = true
          · simp [validateMoves, h1, h2, he, h3]
          · simp only [List.cons_append, validateMoves, h1, h2, he, h3, if_neg, if_false]
            simpa [h1, h2, h3] using ih l2 (sps ++ [m.source]) (dps ++ [m.destination])
              (fcs ++ [(m.destination, e.content)])

theorem validateMoves_destExists_char (snapshot : List SnapEntry) :
    ∀ (ms : List Move) (sps dps : List Str) (fcs : List (Str × Str)) (d : Str),
      validateMoves snapshot ms sps dps fcs = .error (.destinationExists d) →
      ∃ i : Fin ms.length, (ms.get i).destination = d ∧ hasPath snapshot d = true ∧
        d ∉ sps ++ (ms.take (i.1 + 1)).map Move.source := by
  intro ms
  induction ms with
  | nil => intro sps dps fcs d h; simp [validateMoves] at h
  | cons m rest ih =>
    intro sps dps fcs d h
    by_cases h1 : m.source ∈ sps
    · simp [validateMoves, h1] at h
    · by_cases h2 : m.destination ∈ dps
      · simp [validateMoves, h1, h2] at h
      · cases he : entryAt snapshot m.source with
        | none => simp [validateMoves, h1, h2, he] at h
        | some e =>
          by_cases h3 : m.destination ∉ sps ++ [m.source] ∧ hasPath snapshot m.destination = true
          · simp only [validateMoves, h1, h2, he, h3, if_pos, if_true,
              Except.error.injEq, Err.destinationExists.injEq] at h
            have hd : m.destination = d := by simpa [h1, h2, h3] using h
            refine ⟨⟨0, by simp⟩, by exact hd, hd ▸ h3.2, ?_⟩
            subst hd
            simpa using h3.1
          · simp only [validateMoves, h1, h2, he, h3, if_neg, if_false] at h
            have h' : validateMoves snapshot rest (sps ++ [m.source])
                (dps ++ [m.destination]) (fcs ++ [(m.destination, e.content)]) =
                .error (.destinationExists d) := by
              simpa [h1, h2, h3] using h
            obtain ⟨i, hi1, hi2, hi3⟩ := ih _ _ _ _ h'
            refine ⟨⟨i.1 + 1, by simp only [List.length_cons]; omega⟩,
              by simpa using hi1, hi2, ?_⟩
            simpa [List.append_assoc] using hi3

theorem mem_treePaths_move_tree (blobSha : Str → Nat) (snapshot : List SnapEntry)
    (sps : List Str) (fcs : List (Str × Str)) (p : Str) :
    p ∈ treePaths (retainedElements snapshot sps ++
        (fcs.map (fun dc => (dc.1, blobSha dc.2))).map
          (fun db => (⟨db.1, mode644, db.2⟩ : TreeElement))) ↔
      (p ∈ snapPaths snapshot ∧ p ∉ sps) ∨ p ∈ fcs.map Prod.fst := by
  simp only [treePaths, List.map_append, List.mem_append]
  rw [← treePaths, mem_treePaths_retained]
  simp [List.mem_map]

/-! ## Claims -/

/-- C2: a text-replacement edit requires its match string to occur in the
target file's current content exactly once: zero occurrences fail with
the text-not-found error, several occurrences fail with the
ambiguous-match error carrying the occurrence count, and with exactly
one occurrence that single occurrence is replaced and committed. -/
theorem C2_replace_requires_unique_match
    (file_path current_content old_text new_text : Str) :
    (pyCount old_text current_content = 0 →
      edit_file file_path current_content old_text new_text =
        (.error (.textNotFound old_text), [])) ∧
    (pyCount old_text current_content > 1 →
      edit_file file_path current_content old_text new_text =
        (.error (.ambiguousMatch old_text (pyCount old_text current_content)), [])) ∧
    (pyCount old_text current_content = 1 →
      edit_file file_path current_content old_text new_text =
        (.ok (pyReplace old_text new_text current_content), [.updateFile file_path]) ∧
      ∃ a b, current_content = a ++ old_text ++ b ∧
        pyReplace old_text new_text current_content = a ++ new_text ++ b) := by
  refine ⟨?_, ?_, ?_⟩
  · intro h0
    have hin : pyIn old_text current_content = false := (pyIn_eq_false_iff _ _).mpr h0
    simp [edit_file, hin]
  · intro h1
    have hin : ¬ pyIn old_text current_content = false := by
      intro hf
      have := (pyIn_eq_false_iff _ _).mp hf
      omega
    simp [edit_file, hin, h1]
  · intro h1
    have hin : ¬ pyIn old_text current_content = false := by
      intro hf
      have := (pyIn_eq_false_iff _ _).mp hf
      omega
    have hgt : ¬ pyCount old_text current_content > 1 := by omega
    exact ⟨by simp [edit_file, hin, hgt], pyCount_one_decomp old_text new_text current_content h1⟩

theorem C2_witness :
    pyCount "foo".toList "xfooy".toList = 1 ∧
    (edit_file "f".toList "xfooy".toList "foo".toList "ba".toList =
        (.ok (pyReplace "foo".toList "ba".toList "xfooy".toList),
          [.updateFile "f".toList]) ∧
      ∃ a b, "xfooy".toList = a ++ "foo".toList ++ b ∧
        pyReplace "foo".toList "ba".toList "xfooy".toList = a ++ "ba".toList ++ b) :=
  ⟨by simp [pyCount],
    (C2_replace_requires_unique_match "f".toList "xfooy".toList "foo".toList
      "ba".toList).2.2 (by simp [pyCount])⟩

/-- C10: `rename_file` with a `new_name` equal to the file's current
filename is rejected with the same-name error before anything is fetched
or written, so the branch is left unchanged (empty effect list). -/
theorem C10_rename_same_name_rejected (blobSha : Str → Nat) (snapshot : List SnapEntry)
    (file_path new_name : Str) (h : currentName file_path = new_name) :
    rename_file blobSha snapshot file_path new_name = (.error .sameName, []) := by
  simp [rename_file, h]

theorem C10_witness :
    currentName "src/a.py".toList = "a.py".toList ∧
    rename_file (fun _ => 0) [] "src/a.py".toList "a.py".toList = (.error .sameName, []) :=
  ⟨by decide, C10_rename_same_name_rejected (fun _ => 0) [] "src/a.py".toList "a.py".toList
    (by decide)⟩

/-- C3: whenever `edit_file` or `move_files_batch` returns a
validator-class error, the recorded effect list is empty: no file
update, blob, tree, commit or ref edit was performed, so the branch is
exactly as before the call. -/
theorem C3_validator_errors_no_mutation :
    (∀ (file_path content old_text new_text : Str) (e : Err),
        (edit_file file_path content old_text new_text).1 = .error e →
        (edit_file file_path content old_text new_text).2 = []) ∧
    (∀ (blobSha : Str → Nat) (snapshot : List SnapEntry) (moves : List Move) (e : Err),
        (move_files_batch blobSha snapshot moves).1 = .error e →
        (move_files_batch blobSha snapshot moves).2 = []) := by
  constructor
  · intro file_path content old_text new_text e h
    by_cases h1 : pyIn old_text content = false
    · simp [edit_file, h1]
    · by_cases h2 : pyCount old_text content > 1
      · simp [edit_file, h1, h2]
      · simp [edit_file, h1, h2] at h
  · intro blobSha snapshot moves e h
    simp only [move_files_batch] at h ⊢
    cases hv : validateMoves snapshot moves [] [] [] with
    | error e' => rfl
    | ok res =>
      obtain ⟨sps, dps, fcs⟩ := res
      rw [hv] at h
      simp at h

theorem C3_witness :
    (edit_file "f".toList "abc".toList "zz".toList "y".toList).1 =
      .error (.textNotFound "zz".toList) ∧
    (edit_file "f".toList "abc".toList "zz".toList "y".toList).2 = [] :=
  ⟨by decide, C3_validator_errors_no_mutation.1 "f".toList "abc".toList "zz".toList
    "y".toList (.textNotFound "zz".toList) (by decide)⟩

/-- C8: the content write is idempotent — writing the same bytes twice
returns the same content-derived reference both times, the second write
succeeds (never an "already exists" failure), and it leaves the store
unchanged. -/
theorem C8_content_write_idempotent (b : Str) (s : ContentStore) :
    ∃ (r : Str) (s' : ContentStore),
      writeContent b s = .ok (r, s') ∧ writeContent b s' = .ok (r, s') := by
  refine ⟨contentRef b, ⟨if b ∈ s.objects then s.objects else b :: s.objects⟩, rfl, ?_⟩
  have hb : b ∈ (if b ∈ s.objects then s.objects else b :: s.objects) := by
    by_cases h : b ∈ s.objects <;> simp [h]
  simp [writeContent, hb]

/-- C9: two publishers that observed the same previous tip: the first
compare-and-set succeeds and moves the branch to its commit, the second
one observes a ref conflict, leaving the branch at the first publisher's
commit. -/
theorem C9_concurrent_publish_cas (r : BranchRef) (c1 c2 : Nat) (h : c1 ≠ r.tip) :
    compareAndSetRef r.tip c1 r = .ok ⟨c1⟩ ∧
    compareAndSetRef r.tip c2 (⟨c1⟩ : BranchRef) = .error .refConflict := by
  constructor
  · simp [compareAndSetRef]
  · simp [compareAndSetRef, h]

/-- C1: for a batch the pipeline reports as committed, the resulting
tree's path set is exactly `(snapshot \ excluded) ∪ added`: after
`delete_files_batch` the prior snapshot minus the deleted paths, after
`move_files_batch` the prior snapshot minus the move sources union the
move destinations. -/
theorem C1_committed_tip_path_set (snapshot : List SnapEntry) :
    (∀ (file_paths : List Str) (t : List TreeElement) (p : Str),
        (delete_files_batch snapshot file_paths).1 = .ok t →
        (p ∈ treePaths t ↔ p ∈ snapPaths snapshot ∧ p ∉ file_paths)) ∧
    (∀ (blobSha : Str → Nat) (moves : List Move) (t : List TreeElement) (p : Str),
        (move_files_batch blobSha snapshot moves).1 = .ok t →
        (p ∈ treePaths t ↔
          (p ∈ snapPaths snapshot ∧ p ∉ moves.map Move.source) ∨
            p ∈ moves.map Move.destination)) := by
  constructor
  · intro file_paths t p h
    simp only [delete_files_batch, Except.ok.injEq] at h
    subst h
    exact mem_treePaths_retained snapshot file_paths p
  · intro blobSha moves t p h
    simp only [move_files_batch] at h
    cases hv : validateMoves snapshot moves [] [] [] with
    | error e => rw [hv] at h; simp at h
    | ok res =>
      obtain ⟨sps, dps, fcs⟩ := res
      rw [hv] at h
      simp only [Except.ok.injEq] at h
      subst h
      obtain ⟨e1, _, e3⟩ := validateMoves_ok_acc snapshot moves [] [] [] sps dps fcs hv
      simp only [List.nil_append, List.map_nil] at e1 e3
      rw [mem_treePaths_move_tree, e1, e3]

theorem C1_witness :
    (delete_files_batch snapEx ["README.md".toList]).1 =
      .ok [⟨"src/a.py".toList, mode644, 2⟩] ∧
    ("src/a.py".toList ∈ treePaths [(⟨"src/a.py".toList, mode644, 2⟩ : TreeElement)] ↔
      "src/a.py".toList ∈ snapPaths snapEx ∧
        "src/a.py".toList ∉ ["README.md".toList]) :=
  ⟨by decide, (C1_committed_tip_path_set snapEx).1 ["README.md".toList]
    [⟨"src/a.py".toList, mode644, 2⟩] "src/a.py".toList (by decide)⟩

/-- C4 counterexample: `batch_update_files` performs no duplicate-
destination check — a batch with two writes to the same path `a.txt`
does not fail with a duplicate-destination error; it builds the tree and
creates a commit anyway. -/
theorem C4_counterexample :
    (batch_update_files blobSha0 [] dupChanges).1 =
      .ok [⟨"a.txt".toList, mode644, 0⟩, ⟨"a.txt".toList, mode644, 0⟩] ∧
    Effect.createCommit ∈ (batch_update_files blobSha0 [] dupChanges).2 := by
  exact ⟨by decide, by decide⟩

/-- C4 amended: a `batch_update_files` batch in which two changes target
the same destination path is not rejected: the call succeeds and exactly
one commit is created (no `DuplicateDestination` validation exists in
this tool). -/
theorem C4_no_duplicate_destination_check (blobSha : Str → Nat)
    (snapshot : List SnapEntry) (changes : List (Str × Str))
    (i j : Fin changes.length) (_hij : i ≠ j)
    (_hdup : (changes.get i).1 = (changes.get j).1) :
    (∃ t, (batch_update_files blobSha snapshot changes).1 = .ok t) ∧
    (batch_update_files blobSha snapshot changes).2.count Effect.createCommit = 1 := by
  refine ⟨⟨_, rfl⟩, ?_⟩
  simp only [batch_update_files]
  rw [List.count_append]
  have h0 : (changes.map fun ch =>
      Effect.createBlob (blobSha ch.2)).count Effect.createCommit = 0 := by
    rw [List.count_eq_zero]
    simp
  rw [h0]
  rfl

theorem C4_amended_witness :
    (∃ t, (batch_update_files blobSha0 [] dupChanges).1 = .ok t) ∧
    (batch_update_files blobSha0 [] dupChanges).2.count Effect.createCommit = 1 :=
  C4_no_duplicate_destination_check blobSha0 [] dupChanges ⟨0, by decide⟩ ⟨1, by decide⟩
    (by decide) (by decide)

/-- C5 counterexample: in the batch `[a.txt → b.txt, b.txt → c.txt]` the
destination `b.txt` is the source of a move of the same batch, yet the
batch fails with the destination-exists error, because the vacating move
comes later in the batch — the claimed order-independence is false. -/
theorem C5_counterexample :
    "b.txt".toList ∈ movesChain.map Move.source ∧
    (move_files_batch blobSha0 snapAB movesChain).1 =
      .error (.destinationExists "b.txt".toList) := by
  exact ⟨by decide, by decide⟩

/-- C5 amended: whenever `move_files_batch` fails with a destination-
exists error on `d`, the move with destination `d` exists in the batch,
`d` exists in the snapshot, and `d` is not the source of that move or of
any earlier move — the exemption covers only sources seen at or before
the conflicting move, so it is order-sensitive. -/
theorem C5_dest_exemption_only_earlier_sources (blobSha : Str → Nat)
    (snapshot : List SnapEntry) (moves : List Move) (d : Str)
    (h : (move_files_batch blobSha snapshot moves).1 =
      .error (.destinationExists d)) :
    ∃ i : Fin moves.length, (moves.get i).destination = d ∧
      hasPath snapshot d = true ∧
      d ∉ (moves.take (i.1 + 1)).map Move.source := by
  have hv : validateMoves snapshot moves [] [] [] = .error (.destinationExists d) := by
    simp only [move_files_batch] at h
    cases hv : validateMoves snapshot moves [] [] [] with
    | error e =>
      rw [hv] at h
      simp only [Except.error.injEq] at h
      rw [h]
    | ok res =>
      obtain ⟨sps, dps, fcs⟩ := res
      rw [hv] at h
      simp at h
  obtain ⟨i, h1, h2, h3⟩ := validateMoves_destExists_char snapshot moves [] [] [] d hv
  exact ⟨i, h1, h2, by simpa using h3⟩

theorem C5_amended_witness :
    ∃ i : Fin movesChain.length,
      (movesChain.get i).destination = "b.txt".toList ∧
      hasPath snapAB "b.txt".toList = true ∧
      "b.txt".toList ∉ (movesChain.take (i.1 + 1)).map Move.source :=
  C5_dest_exemption_only_earlier_sources blobSha0 snapAB movesChain "b.txt".toList
    (by decide)

/-- C6: a move whose destination already exists in the snapshot and is
not a source vacated by the batch is rejected with the destination-exists
error during validation, with an empty effect list — before any blob,
tree or commit is created; likewise the single-file `move_file` rejects
an existing destination before its blob write. -/
theorem C6_dest_exists_rejected_before_write (blobSha : Str → Nat)
    (snapshot : List SnapEntry) (pre : List Move) (m : Move) (rest : List Move)
    (sps dps : List Str) (fcs : List (Str × Str))
    (source_path destination_path : Str)
    (hpre : validateMoves snapshot pre [] [] [] = .ok (sps, dps, fcs))
    (hs : m.source ∉ sps) (hd : m.destination ∉ dps)
    (hsrc : hasPath snapshot m.source = true)
    (hdest : hasPath snapshot m.destination = true)
    (hnot : m.destination ∉ (pre ++ m :: rest).map Move.source)
    (hsp : hasPath snapshot source_path = true)
    (hdp : hasPath snapshot destination_path = true) :
    ((move_files_batch blobSha snapshot (pre ++ m :: rest)).1 =
        .error (.destinationExists m.destination) ∧
      (move_files_batch blobSha snapshot (pre ++ m :: rest)).2 = []) ∧
    move_file blobSha snapshot source_path destination_path =
      (.error (.destinationExists destination_path), []) := by
  have hnot' : m.destination ∉ pre.map Move.source ∧ m.destination ≠ m.source := by
    simp only [List.map_append, List.map_cons, List.mem_append, List.mem_cons,
      not_or] at hnot
    exact ⟨hnot.1, hnot.2.1⟩
  obtain ⟨es, _, _⟩ := validateMoves_ok_acc snapshot pre [] [] [] sps dps fcs hpre
  simp only [List.nil_append] at es
  have hmem : m.destination ∉ sps ++ [m.source] := by
    simp only [List.mem_append, List.mem_singleton, not_or]
    exact ⟨by rw [es]; exact hnot'.1, hnot'.2⟩
  obtain ⟨e, he⟩ := Option.isSome_iff_exists.mp hsrc
  have hvm : validateMoves snapshot (pre ++ m :: rest) [] [] [] =
      .error (.destinationExists m.destination) := by
    rw [validateMoves_append, hpre]
    simp [validateMoves, hs, hd, he, hmem, hdest]
  refine ⟨⟨?_, ?_⟩, ?_⟩
  · simp [move_files_batch, hvm]
  · simp [move_files_batch, hvm]
  · obtain ⟨e2, he2⟩ := Option.isSome_iff_exists.mp hsp
    simp [move_file, he2, hdp]

theorem C6_witness :
    ((move_files_batch blobSha0 snapAB
        ([] ++ (⟨"a.txt".toList, "b.txt".toList⟩ : Move) :: [])).1 =
        .error (.destinationExists "b.txt".toList) ∧
      (move_files_batch blobSha0 snapAB
        ([] ++ (⟨"a.txt".toList, "b.txt".toList⟩ : Move) :: [])).2 = []) ∧
    move_file blobSha0 snapAB "a.txt".toList "b.txt".toList =
      (.error (.destinationExists "b.txt".toList), []) :=
  C6_dest_exists_rejected_before_write blobSha0 snapAB []
    ⟨"a.txt".toList, "b.txt".toList⟩ [] [] [] [] "a.txt".toList "b.txt".toList
    (by decide) (by decide) (by decide) (by decide) (by decide) (by decide)
    (by decide) (by decide)

/-- C7 counterexample: the snapshot entry `run.sh` has git mode `100755`
and is retained by a delete batch that excludes nothing, but the
synthesized tree re-emits it with the hard-coded mode `100644`: the
snapshot's file-permission mode is not preserved. -/
theorem C7_counterexample :
    (⟨"run.sh".toList, 5, "100755".toList, "X".toList⟩ : SnapEntry) ∈ snapExec ∧
    (delete_files_batch snapExec []).1 = .ok [⟨"run.sh".toList, mode644, 5⟩] ∧
    (⟨"run.sh".toList, "100755".toList, 5⟩ : TreeElement) ∉
      [(⟨"run.sh".toList, mode644, 5⟩ : TreeElement)] := by
  exact ⟨by decide, by decide, by decide⟩

/-- C7 amended: every snapshot entry whose path is not excluded (not
deleted, not a move source) reappears in the synthesized tree with the
same path and the same content reference (blob sha), but always with the
hard-coded mode `"100644"` — its snapshot mode is preserved only when it
already was `"100644"`. -/
theorem C7_retained_same_path_sha_forced_mode (snapshot : List SnapEntry) (e : SnapEntry) :
    (∀ (file_paths : List Str) (t : List TreeElement),
        (delete_files_batch snapshot file_paths).1 = .ok t → e ∈ snapshot →
        e.path ∉ file_paths → (⟨e.path, mode644, e.sha⟩ : TreeElement) ∈ t) ∧
    (∀ (blobSha : Str → Nat) (moves : List Move) (t : List TreeElement),
        (move_files_batch blobSha snapshot moves).1 = .ok t → e ∈ snapshot →
        e.path ∉ moves.map Move.source →
        (⟨e.path, mode644, e.sha⟩ : TreeElement) ∈ t) := by
  constructor
  · intro file_paths t h he hp
    simp only [delete_files_batch, Except.ok.injEq] at h
    subst h
    exact mem_retainedElements_of snapshot file_paths e he hp
  · intro blobSha moves t h he hp
    simp only [move_files_batch] at h
    cases hv : validateMoves snapshot moves [] [] [] with
    | error er => rw [hv] at h; simp at h
    | ok res =>
      obtain ⟨sps, dps, fcs⟩ := res
      rw [hv] at h
      simp only [Except.ok.injEq] at h
      subst h
      obtain ⟨e1, _, _⟩ := validateMoves_ok_acc snapshot moves [] [] [] sps dps fcs hv
      simp only [List.nil_append] at e1
      exact List.mem_append_left _
        (mem_retainedElements_of snapshot sps e he (by rw [e1]; exact hp))

theorem C7_amended_witness :
    (delete_files_batch snapExec []).1 = .ok [⟨"run.sh".toList, mode644, 5⟩] ∧
    (⟨"run.sh".toList, mode644, 5⟩ : TreeElement) ∈
      [(⟨"run.sh".toList, mode644, 5⟩ : TreeElement)] :=
  ⟨by decide, (C7_retained_same_path_sha_forced_mode snapExec
    ⟨"run.sh".toList, 5, "100755".toList, "X".toList⟩).1 []
    [⟨"run.sh".toList, mode644, 5⟩] (by decide) (by decide) (by decide)⟩

theorem C9_witness :
    (1 : Nat) ≠ (⟨0⟩ : BranchRef).tip ∧
    (compareAndSetRef (⟨0⟩ : BranchRef).tip 1 ⟨0⟩ = .ok ⟨1⟩ ∧
      compareAndSetRef (⟨0⟩ : BranchRef).tip 2 (⟨1⟩ : BranchRef) = .error .refConflict) :=
  ⟨by decide, C9_concurrent_publish_cas ⟨0⟩ 1 2 (by decide)⟩

end GitMCP
